import Mathlib

/-
Verification of the OperationChecker debugging tool
(pennylane/debugging/operation_checker.py) and the op_transform dispatcher
(pennylane/ops/functions/op_transform.py).

The Python source is shallowly embedded below.  Numeric values (numpy
float64 arrays of complex numbers) are modelled exactly by Gaussian
rationals (pairs of rationals); numpy's elementwise closeness test
`absolute(a - b) <= atol + rtol*absolute(b)` is expressed by the
equivalent squared comparison over rationals.  External collaborators
(the operator model, the linear-algebra backend) are passed in as
explicit values or oracle functions, following the spec's interface
boundary.
-/

namespace OpChecker

/-! ### Severity levels and the print session (operation_checker.py lines 34-42, 375-405) -/

/-- The four severity levels of the checker, as in the keys of the source's
`verbosity_levels` dictionary. -/
inductive Level where
  | error
  | hint
  | comment
  | pass
deriving DecidableEq, Repr

/-- The dictionary `verbosity_levels = {"error": 0, "hint": 1, "comment": 2, "pass": 3}`. -/
def verbosity_levels : Level → Nat
  | .error => 0
  | .hint => 1
  | .comment => 2
  | .pass => 3

/-- The inverse dictionary `levels_verbosity` mapping indices back to level names. -/
def levels_verbosity : Nat → Level
  | 0 => .error
  | 1 => .hint
  | 2 => .comment
  | _ => .pass

/-- The string name of a level (the dictionary keys in the source). -/
def levelName : Level → String
  | .error => "error"
  | .hint => "hint"
  | .comment => "comment"
  | .pass => "pass"

/-- One `print_(string, level)` call made during the check of one operation. -/
structure Event where
  msg : String
  level : Level
deriving DecidableEq, Repr

/-- The per-operation session state mutated by `print_`: `self.tmp["res"]`,
`self.tmp["printed_header"]` and `self.output[op]`. -/
structure SState where
  res : Nat
  printedHeader : Bool
  output : String
deriving DecidableEq, Repr

/-- The initial per-operation state set up in `__call__`:
`res = max(verbosity_levels.values())` (= 3), no header printed, empty output. -/
def initSState : SState := ⟨3, false, ""⟩

/-- Header text prepended on the first emitted message for an operation
(`"Checking operation {op} for consistency.\n" + "= "*40`; the operation
name is a presentation detail and is abstracted). -/
def headerText : String := "Checking operation OP for consistency.\n= "

/-- One step of `OperationChecker.print_` (lines 375-405): the result
accumulator is updated with `min` unconditionally, then the message is
appended to the output only if the level is `"error"` or the level is in
`self._verbosity`, i.e. its index is at most the threshold's index. -/
def printStep (thr : Level) (s : SState) (e : Event) : SState :=
  let res : Nat := min s.res (verbosity_levels e.level)
  if e.level = Level.error ∨ verbosity_levels e.level ≤ verbosity_levels thr then
    if s.printedHeader then
      ⟨res, true, s.output ++ "\n" ++ e.msg⟩
    else
      ⟨res, true, s.output ++ headerText ++ "\n" ++ e.msg⟩
  else
    ⟨res, s.printedHeader, s.output⟩

/-- Run the sequence of `print_` calls of one operation's check session. -/
def runSession (thr : Level) (evs : List Event) : SState :=
  evs.foldl (printStep thr) initSState

/-- The outcome of `check_single_operation` for one operation: either it runs
to completion having emitted the given events, or it raises `CheckerError`
after emitting them. -/
inductive OpOutcome where
  | done : List Event → OpOutcome
  | aborted : List Event → OpOutcome

/-- The success notice appended in `__call__` when an operation's result is
`"pass"` (line 371). -/
def passNotice : Event := ⟨"No problems have been found with the operation OP.", Level.pass⟩

/-- The loop of `OperationChecker.__call__` (lines 356-373) over the checked
operations: per operation, run its session, record
`levels_verbosity[self.tmp["res"]]` in `self.results`, then print the pass
notice if the result is `"pass"`.  `CheckerError` is caught nowhere in the
source, so an aborted operation makes the exception escape the loop and the
whole call (modelled as `Except.error`), returning no mappings at all.
On success, the list of `(severity name, accumulated text)` pairs is
returned, one per operation in order. -/
def callCheckerFull (thr : Level) : List OpOutcome → Except Unit (List (String × String))
  | [] => .ok []
  | .aborted _ :: _ => .error ()
  | .done evs :: rest =>
    let s := runSession thr evs
    let sevName := levelName (levels_verbosity s.res)
    let s1 := if sevName = "pass" then printStep thr s passNotice else s
    (callCheckerFull thr rest).map (fun rs => (sevName, s1.output) :: rs)

/-! ### Gaussian-rational complex numbers and matrices

The numpy arrays of complex floats handled by the checker are modelled by
square matrices of Gaussian rationals.  `|z| <= t` is expressed as
`0 <= t ∧ normSq z <= t^2`, which is exactly equivalent over the reals. -/

/-- A complex number with rational real and imaginary parts. -/
structure GC where
  re : ℚ
  im : ℚ
deriving DecidableEq, Repr

/-- Componentwise subtraction. -/
def GC.sub (a b : GC) : GC := ⟨a.re - b.re, a.im - b.im⟩

/-- Complex multiplication. -/
def GC.mul (a b : GC) : GC := ⟨a.re * b.re - a.im * b.im, a.re * b.im + a.im * b.re⟩

/-- Squared modulus: `|a|^2`. -/
def GC.normSq (a : GC) : ℚ := a.re * a.re + a.im * a.im

/-- Complex reciprocal (`1/a`; yields `0` at `a = 0`, which is never hit on
the guarded code path). -/
def GC.inv (a : GC) : GC := ⟨a.re / a.normSq, -a.im / a.normSq⟩

/-- Complex division `a / b`. -/
def GC.div (a b : GC) : GC := a.mul b.inv

/-- A square `d × d` complex matrix. -/
def Mat (d : Nat) : Type := Fin d → Fin d → GC

/-- Scalar multiple of a matrix, `c * M` elementwise. -/
def smulMat {d : Nat} (c : GC) (M : Mat d) : Mat d := fun i j => c.mul (M i j)

/-- The test `absolute(x - y) <= atol` for two complex entries (the `rtol=0.0` case of
`np.isclose`), stated via the squared modulus. -/
def closeGC (x y : GC) (atol : ℚ) : Prop := 0 ≤ atol ∧ (x.sub y).normSq ≤ atol ^ 2

instance (x y : GC) (atol : ℚ) : Decidable (closeGC x y atol) := by
  unfold closeGC; infer_instance

/-- The test `np.allclose(A, B, atol=atol, rtol=0.0)` for two `d × d` matrices. -/
def allclose {d : Nat} (A B : Mat d) (atol : ℚ) : Bool :=
  decide (∀ i j, closeGC (A i j) (B i j) atol)

/-- Whether `np.round(z, 10)` is nonzero, i.e. whether the real or the
imaginary part of `z` scaled by `10^10` rounds (half to even) away from 0. -/
def roundNonzero (z : GC) : Bool :=
  decide ((1 : ℚ) / 2 < |z.re| * 10 ^ 10 ∨ (1 : ℚ) / 2 < |z.im| * 10 ^ 10)

/-- Row-major enumeration of the index pairs of a `d × d` matrix. -/
def indexList (d : Nat) : List (Fin d × Fin d) :=
  (List.finRange d).flatMap (fun i => (List.finRange d).map (fun j => (i, j)))

/-- The index pair `(ids[0][0], ids[1][0])` computed from
`ids = np.where(np.round(mat2, 10))`: the position of the first entry (in
row-major order) of `mat2` that rounds to a nonzero value, when one exists. -/
def firstNonzeroIdx {d : Nat} (A : Mat d) : Option (Fin d × Fin d) :=
  (indexList d).find? (fun q => roundNonzero (A q.1 q.2))

/-- The function `equal_up_to_phase(mat1, mat2, atol)` (operation_checker.py lines 54-77).
If the matrices are already `allclose`, return `True`.  Otherwise find the
first entry of `mat2` whose rounding to 10 decimals is nonzero — when every
entry rounds to zero the indexing `ids[0][0]` raises an `IndexError`,
modelled as `Except.error ()` — divide the corresponding entry of `mat1` by
it to get the candidate phase, and compare `mat1` with `mat2 * phase`. -/
def equal_up_to_phase {d : Nat} (mat1 mat2 : Mat d) (atol : ℚ) : Except Unit Bool :=
  if allclose mat1 mat2 atol then .ok true
  else
    match firstNonzeroIdx mat2 with
    | none => .error ()
    | some q => .ok (allclose mat1 (fun i j => (mat2 i j).mul ((mat1 q.1 q.2).div (mat2 q.1 q.2))) atol)

/-! ### Captured exceptions and wrapped method results -/

/-- A Python exception value, identified by its type name and message. -/
structure Exc where
  ty : String
  msg : String
deriving DecidableEq, Repr

/-- The three possible results of the callable produced by
`wrap_op_method(op, method, expected_exc)` (lines 94-124): the method's
value, `None` when the expected "undefined" exception was raised, or the
captured unexpected exception itself. -/
inductive WrapRes (α : Type) where
  | val : α → WrapRes α
  | none : WrapRes α
  | exc : Exc → WrapRes α

/-- The value produced by one of the six `matrix_from_*` reconstruction
functions for a fixed parameter set: a dense `d × d` matrix, `None`
(representation legitimately absent), or a captured exception. -/
inductive RT (d : Nat) where
  | mat : Mat d → RT d
  | none : RT d
  | exc : Exc → RT d

/-- Whether a reconstruction result is the Python value `None`. -/
def RT.isNone {d : Nat} : RT d → Bool
  | .none => true
  | _ => false

/-- Whether a reconstruction result is a captured exception. -/
def RT.isExc {d : Nat} : RT d → Bool
  | .exc _ => true
  | _ => false

/-! ### matrix_from_generator (lines 228-246) -/

/-- The function `matrix_from_generator(op, par, wires)`: the wrapped `generator` call
yields a `WrapRes`; the numeric tail `la.expm(1j * par[0] * qml.matrix(gen))`
is an external backend computation, abstracted as the oracle `expOracle`.
Note the source returns `None` both when the generator is undefined and when
an unexpected exception was captured (`if gen is None or
isinstance(gen, Exception): return None`). -/
def matrix_from_generator {α : Type} (d : Nat) (expOracle : α → Mat d) :
    WrapRes α → RT d
  | .val g => .mat (expOracle g)
  | .none => .none
  | .exc _ => .none

/-! ### _check_wires (lines 439-467) -/

/-- The declared `num_wires` of an operation: an abstract unset `property`
placeholder, the `AnyWires` sentinel, or a concrete integer. -/
inductive NumWires where
  | abstractProp
  | anyWires
  | concrete : Nat → NumWires
deriving DecidableEq, Repr

/-- The error emitted when `num_wires` is an unset property. -/
def evWiresUndef : Event := ⟨"The operation OP does not define the number of wires it acts on.", Level.error⟩

/-- The error emitted by the provided-wire-count test of `_check_wires`. -/
def evWireCount : Event := ⟨"The number of provided wires does not match the expected number for operation OP", Level.error⟩

/-- The method `OperationChecker._check_wires(op, wires)`.  The `Except` error branch
models `raise CheckerError` (carrying the events printed before the raise);
the success branch returns the resolved wires together with the printed
events.  Note the source's provided-wires test: it errors precisely when
`op.num_wires != AnyWires and len(wires) == op.num_wires`. -/
def check_wires : NumWires → Option (List Nat) → Except (List Event) (List Nat × List Event)
  | .abstractProp, _ => .error [evWiresUndef]
  | .concrete n, Option.none => .ok (List.range n, [])
  | .anyWires, Option.none => .ok ([0, 1], [])
  | .concrete n, Option.some ws =>
    if ws.length = n then .error [evWireCount] else .ok (ws, [])
  | .anyWires, Option.some ws => .ok (ws, [])

/-! ### _check_parameters (lines 469-489) -/

/-- The parameter data flowing out of `_check_parameters`: a single
parameter vector (when `num_params` is known), or one candidate vector per
probed length (when it is not). -/
inductive ParamChoice where
  | single : List ℚ → ParamChoice
  | candidates : List (List ℚ) → ParamChoice
deriving DecidableEq, Repr

/-- The value `len(parameters)` on the object held by `parameters`. -/
def pcLen : ParamChoice → Nat
  | .single p => p.length
  | .candidates ps => ps.length

/-- The error emitted by the parameter-count test of `_check_parameters`. -/
def evParamCount : Event := ⟨"The number of provided parameters does not match the expected number for operation OP", Level.error⟩

/-- The method `OperationChecker._check_parameters(op, parameters)`.  `numParams` is
`some n` when `isinstance(op.num_params, int)`; `rand` models
`np.random.random` (`rand n` is a fresh random vector of length `n`).
When no parameters are supplied and the count is unknown, the source draws
`[np.random.random(num) for num in range(self.max_num_params)]`. -/
def check_parameters (numParams : Option Nat) (params : Option ParamChoice)
    (max_num_params : Nat) (rand : Nat → List ℚ) : Except (List Event) ParamChoice :=
  match params, numParams with
  | Option.none, Option.some n => .ok (.single (rand n))
  | Option.none, Option.none => .ok (.candidates ((List.range max_num_params).map rand))
  | Option.some pc, Option.some n =>
    if pcLen pc ≠ n then .error [evParamCount] else .ok pc
  | Option.some pc, Option.none => .ok pc

/-! ### _check_decompositions (lines 593-607) -/

/-- The call `equal_up_to_phase(matrices[0], mat, atol)` applied to two entries of the
filtered list: comparing with a captured exception object makes numpy raise
a `TypeError` (modelled as `Except.error ()`); `RT.none` never reaches this
point. -/
def euptRT {d : Nat} (atol : ℚ) : RT d → RT d → Except Unit Bool
  | .mat a, .mat b => equal_up_to_phase a b atol
  | _, _ => .error ()

/-- The filter `[mat for mat in matrices if mat is not None]`: captured
exception values are kept. -/
def keptRT {d : Nat} (rs : List (RT d)) : List (RT d) :=
  rs.filter (fun r => !r.isNone)

/-- The comparison loop `for mat in matrices[1:]` of `_check_decompositions`:
each element is compared with the head; `not equal_up_to_phase(...)` emits
one error-level message; an exception from the comparison aborts the whole
call. -/
def checkDecompsGo {d : Nat} (atol : ℚ) (m0 : RT d) :
    List (RT d) → List Level → Except Unit (List Level)
  | [], acc => .ok acc
  | m :: ms, acc =>
    match euptRT atol m0 m with
    | .error _ => .error ()
    | .ok true => checkDecompsGo atol m0 ms acc
    | .ok false => checkDecompsGo atol m0 ms (acc ++ [Level.error])

/-- The method `OperationChecker._check_decompositions` for one probed parameter set,
applied to the values returned by the six reconstruction functions: filter
out the `None` results, then compare every remaining element against the
first remaining one with `equal_up_to_phase(..., atol=self.tol)`, emitting a
severity-error message per mismatch. -/
def checkDecompsPar {d : Nat} (rs : List (RT d)) (atol : ℚ) : Except Unit (List Level) :=
  match keptRT rs with
  | [] => .ok []
  | m0 :: rest => checkDecompsGo atol m0 rest []

/-- The usable (non-`None`, non-exception) matrices among the reconstruction
results, in order. -/
def usableMats {d : Nat} (rs : List (RT d)) : List (Mat d) :=
  rs.filterMap (fun r => match r with | .mat m => Option.some m | _ => Option.none)

/-- The comparison loop over usable matrices only, used by
`checkDecompsSpec`. -/
def checkDecompsSpecGo {d : Nat} (atol : ℚ) (m0 : Mat d) :
    List (Mat d) → List Level → Except Unit (List Level)
  | [], acc => .ok acc
  | m :: ms, acc =>
    match equal_up_to_phase m0 m atol with
    | .error _ => .error ()
    | .ok true => checkDecompsSpecGo atol m0 ms acc
    | .ok false => checkDecompsSpecGo atol m0 ms (acc ++ [Level.error])

/-- Modelled from the spec's words (for comparison with `checkDecompsPar`,
which is the source's behaviour): "every reconstruction that returns a
usable value (not None and not a captured error) is compared for equality up
to a single global phase ... against the first computed one". -/
def checkDecompsSpec {d : Nat} (rs : List (RT d)) (atol : ℚ) : Except Unit (List Level) :=
  match usableMats rs with
  | [] => .ok []
  | m0 :: ms => checkDecompsSpecGo atol m0 ms []

/-! ### _check_eigvals (lines 644-655) -/

/-- The test `np.isclose(a, b)` with numpy's default tolerances
(`rtol=1e-05`, `atol=1e-08`) for real scalars: `|a - b| <= atol + rtol*|b|`.
Eigenvalue lists are modelled with rational (real) entries. -/
def closeQ (a b : ℚ) : Bool :=
  decide (|a - b| ≤ 1e-8 + 1e-5 * |b|)

/-- The test `np.allclose(a, b)` with default tolerances on two equal-length vectors;
numpy raises a broadcast error on incompatible lengths (`Except.error ()`). -/
def np_allclose_q (a b : List ℚ) : Except Unit Bool :=
  if a.length = b.length then .ok ((a.zip b).all (fun p => closeQ p.1 p.2))
  else .error ()

/-- The method `OperationChecker._check_eigvals(eigvals, matrix, op)`: skip when either
the matrix or the stored eigenvalues are `None`; otherwise compare
`np.linalg.eigvals(matrix)` — the external backend, abstracted as the oracle
`ev` — against the declared eigenvalues with `np.allclose` (default
tolerances, elementwise in the given order), emitting a severity-error
message on failure. -/
def check_eigvals (d : Nat) (eigvals : Option (List ℚ)) (matrix : Option (Mat d))
    (ev : Mat d → List ℚ) : Except Unit (List Level) :=
  match matrix, eigvals with
  | Option.some m, Option.some evs =>
    (np_allclose_q (ev m) evs).map (fun b => if b then [] else [Level.error])
  | _, _ => .ok []

/-! ### op_transform.fn (op_transform.py lines 229-287) -/

/-- An exception as it reaches the caller of `op_transform.fn`: the raised
exception together with the reported cause/context (`raise e1 from None`
suppresses the context, giving `cause = none`; an exception raised while
handling `e1` without `from None` carries `some e1`). -/
structure RaisedExc where
  exc : Exc
  cause : Option Exc
deriving DecidableEq, Repr

/-- Whether an exception is caught by the handler
`except (AttributeError, OperationTransformError)` of `op_transform.fn`. -/
def caughtBySecondExcept (e : Exc) : Bool :=
  e.ty == "AttributeError" || e.ty == "OperationTransformError"

/-- The method `op_transform.fn(obj, ...)`: try the direct evaluator `self._fn`; if it
raises `e1`, evaluate `obj.expand()` and pass the result to
`self.tape_fn`, which raises `OperationTransformError` when no tape
transform has been registered; if that secondary attempt raises
`AttributeError` or `OperationTransformError`, re-raise `e1` with chaining
suppressed (`raise e1 from None`); any other exception of the secondary
attempt propagates, implicitly chained to `e1`.
`direct` is the outcome of `self._fn(obj, ...)`; `expand` the outcome of
`obj.expand()`; `tapeFnReg` the registered tape transform (`none` when
`self._tape_fn is None`), whose outcome on the expanded tape is given by
applying it. -/
def op_transform_fn {A T : Type} (direct : Except Exc A) (expand : Except Exc T)
    (tapeFnReg : Option (T → Except Exc A)) : Except RaisedExc A :=
  match direct with
  | .ok a => .ok a
  | .error e1 =>
    match expand with
    | .error ex =>
      if caughtBySecondExcept ex then .error ⟨e1, Option.none⟩
      else .error ⟨ex, Option.some e1⟩
    | .ok t =>
      match tapeFnReg with
      | Option.none => .error ⟨e1, Option.none⟩
      | Option.some f =>
        match f t with
        | .ok a => .ok a
        | .error e2 =>
          if caughtBySecondExcept e2 then .error ⟨e1, Option.none⟩
          else .error ⟨e2, Option.some e1⟩

/-! ### Concrete inputs used in the theorems below -/

/-- A concrete stand-in for `np.random.random`: `rand0 n` is a vector of
length `n` (only the lengths of the drawn vectors matter to the claims). -/
def rand0 : Nat → List ℚ := fun n => (List.range n).map (fun k => (k : ℚ))

/-- The severity-name mapping produced by the `__call__` loop, one name per
operation, with the abort escaping as in the source (no `except
CheckerError` anywhere). -/
def severityMapping : List OpOutcome → Except Unit (List String)
  | [] => .ok []
  | .aborted _ :: _ => .error ()
  | .done evs :: rest =>
    (severityMapping rest).map
      (fun rs => levelName (levels_verbosity ((evs.map (fun e => verbosity_levels e.level)).foldl min 3)) :: rs)

/-- A captured unexpected exception used as a concrete reconstruction
result. -/
def e0 : Exc := ⟨"ValueError", "boom"⟩

/-- The constant `1` one-by-one matrix. -/
def M1 : Mat 1 := fun _ _ => ⟨1, 0⟩

/-- The 2x2 identity matrix. -/
def I2 : Mat 2 := fun i j => if i = j then ⟨1, 0⟩ else ⟨0, 0⟩

/-- The Pauli-Z matrix `diag(1, -1)`. -/
def Z2 : Mat 2 := fun i j => if i = j then (if (i : Nat) = 0 then ⟨1, 0⟩ else ⟨-1, 0⟩) else ⟨0, 0⟩

/-- The diagonal matrix `diag(1, 2)`. -/
def Mdiag12 : Mat 2 := fun i j => if i = j then (if (i : Nat) = 0 then ⟨1, 0⟩ else ⟨2, 0⟩) else ⟨0, 0⟩

/-- The value of the external eigenvalue backend (`np.linalg.eigvals`) on the
input it is probed at below: for the diagonal matrix `diag(1, 2)` numpy
returns `[1., 2.]`. -/
def ev0 : Mat 2 → List ℚ := fun _ => [1, 2]

/-- A one-by-one matrix with a single tiny entry `4e-11 + 4e-11 i`: every
entry of `Mtiny` and of `-Mtiny` rounds to zero at 10 decimal places, yet
`Mtiny` and `-Mtiny` are farther apart than `atol = 1e-10`. -/
def Mtiny : Mat 1 := fun _ _ => ⟨4 / 10 ^ 11, 4 / 10 ^ 11⟩

/-- The scalar `-1 = exp(i*pi)`, a global phase. -/
def cNeg1 : GC := ⟨-1, 0⟩

/-- The scalar `i = exp(i*pi/2)`, a global phase. -/
def cI : GC := ⟨0, 1⟩

/-- The predicate `failsCmp(m0, m, atol)`: the comparison `equal_up_to_phase(m0, m, atol)` did
not return `True` (used to count the error messages of
`_check_decompositions`). -/
def failsCmp {d : Nat} (m0 m : Mat d) (atol : ℚ) : Bool :=
  match equal_up_to_phase m0 m atol with
  | .ok true => false
  | _ => true

/-! ## Theorems -/

/-- The result accumulator of one `print_` call: updated with `min`
unconditionally, before the verbosity filter. -/
theorem printStep_res (thr : Level) (s : SState) (e : Event) :
    (printStep thr s e).res = min s.res (verbosity_levels e.level) := by
  unfold printStep
  split
  · split <;> rfl
  · rfl

/-- The emission filter never touches the accumulator: folding `print_` over
any event list computes the running minimum of the levels. -/
theorem res_foldl (thr : Level) (evs : List Event) (s : SState) :
    (evs.foldl (printStep thr) s).res = (evs.map fun e => verbosity_levels e.level).foldl min s.res := by
  induction evs generalizing s with
  | nil => rfl
  | cons e evs ih =>
    simp only [List.foldl, List.map]
    rw [ih, printStep_res]

/-- C4: for every checked operation, the severity recorded in the result
mapping is the minimum (most severe, under error=0 < hint=1 < comment=2 <
pass=3) of the levels of all messages emitted during its check session,
starting from the initial value pass (index 3); in particular a session with
no emitted diagnostics reports "pass". -/
theorem c4_severity_is_min_of_emitted_levels (thr : Level) (evs : List Event) :
    (runSession thr evs).res = (evs.map fun e => verbosity_levels e.level).foldl min 3
    ∧ levelName (levels_verbosity (runSession thr []).res) = "pass" := by
  exact ⟨res_foldl thr evs initSState, rfl⟩

/-- The severity components of the `__call__` result do not depend on the
verbosity threshold. -/
theorem callCheckerFull_fst (thr : Level) (outs : List OpOutcome) :
    (callCheckerFull thr outs).map (List.map Prod.fst) = severityMapping outs := by
  induction outs with
  | nil => rfl
  | cons o rest ih =>
    cases o with
    | aborted evs => rfl
    | done evs =>
      simp only [callCheckerFull, severityMapping]
      rw [← ih]
      cases callCheckerFull thr rest with
      | error u => rfl
      | ok l =>
        simp only [Except.map, List.map]
        rw [runSession, res_foldl]
        rfl

/-- C10: for a fixed sequence of per-operation check outcomes (fixed
operations, parameters, wires and seed), the severity mapping returned by
the checker is identical under any two verbosity settings — the threshold
filters only the accumulated text, while the severity accumulator is
updated before the filter. -/
theorem c10_severities_independent_of_verbosity (v1 v2 : Level) (outs : List OpOutcome) :
    (callCheckerFull v1 outs).map (List.map Prod.fst)
      = (callCheckerFull v2 outs).map (List.map Prod.fst) := by
  rw [callCheckerFull_fst, callCheckerFull_fst]

/-- C2: evaluating `__call__` on a sequence of two operations whose first
raises the internal `CheckerError` abort signal.  No handler for
`CheckerError` exists anywhere in the source, so the exception escapes the
per-operation loop: the second operation is never checked and no severity
or text mappings are returned, contradicting the claim that the abort is
contained to the current operation. -/
theorem c2_abort_escapes_call_loop :
    callCheckerFull Level.pass [OpOutcome.aborted [evWiresUndef], OpOutcome.done []]
      = Except.error ()
    ∧ callCheckerFull Level.pass [OpOutcome.done [], OpOutcome.done []]
      = Except.ok [("pass", (printStep Level.pass initSState passNotice).output),
                   ("pass", (printStep Level.pass initSState passNotice).output)] := by
  exact ⟨rfl, rfl⟩

/-- C3: evaluating `_check_wires` for an operation with concrete declared
arity 2.  Supplying wires whose count matches the declared arity emits the
"does not match the expected number" error and aborts, while supplying a
mismatched count passes silently — the test `len(wires) == op.num_wires` is
inverted with respect to the claim (and to the message it prints). -/
theorem c3_wire_count_check_inverted :
    check_wires (NumWires.concrete 2) (Option.some [0, 1]) = Except.error [evWireCount]
    ∧ check_wires (NumWires.concrete 2) (Option.some [0]) = Except.ok ([0], []) := by
  exact ⟨rfl, rfl⟩

/-- C6: a probed `generator` capability that raises an unexpected exception:
`matrix_from_generator` maps the captured exception to `None`
(`if gen is None or isinstance(gen, Exception): return None`), so downstream
the result is indistinguishable from a legitimately absent generator and
`_check_decompositions` emits no diagnostic at all — the exception is
silently dropped, contradicting the claim (and the function's own
docstring, which says the exception is returned). -/
theorem c6_generator_exception_silently_dropped {α : Type} (d : Nat)
    (o : α → Mat d) (e : Exc) (atol : ℚ) :
    matrix_from_generator d o (WrapRes.exc e) = RT.none
    ∧ checkDecompsPar [matrix_from_generator d o (WrapRes.exc e)] atol = Except.ok [] := by
  exact ⟨rfl, rfl⟩

/-- C8: evaluating `_check_parameters` at the default `max_num_params = 10`
with unknown parameter count and no supplied parameters: the source draws
`range(max_num_params)` candidate vectors, i.e. 10 vectors of lengths 0..9 —
not the claimed `max_num_params + 1` vectors of lengths 0..10.  Length
`max_num_params` itself is never probed, contradicting the claim and the
constructor docstring ("largest number of parameters to check"). -/
theorem c8_candidate_lengths_exclude_max :
    check_parameters Option.none Option.none 10 rand0
      = Except.ok (ParamChoice.candidates ((List.range 10).map rand0))
    ∧ ((List.range 10).map rand0).map List.length = [0, 1, 2, 3, 4, 5, 6, 7, 8, 9] := by
  refine ⟨rfl, ?_⟩
  decide

/-- C5 counterexample: the direct evaluator raises `KeyError`, no aggregate
(tape) evaluator is registered — the claim's antecedent holds — but the
`obj.expand()` attempt raises an unrelated `ValueError`: since the handler
catches only `AttributeError` and `OperationTransformError`, the
`ValueError` propagates to the caller (implicitly chained to the original),
and the original `KeyError` is not re-raised. -/
theorem c5_counterexample_unrelated_expand_failure :
    op_transform_fn (Except.error ⟨"KeyError", "k"⟩ : Except Exc Unit)
        (Except.error ⟨"ValueError", "bad expand"⟩ : Except Exc Unit)
        Option.none
      = Except.error ⟨⟨"ValueError", "bad expand"⟩, Option.some ⟨"KeyError", "k"⟩⟩
    ∧ (Except.error ⟨⟨"ValueError", "bad expand"⟩, Option.some ⟨"KeyError", "k"⟩⟩ : Except RaisedExc Unit)
        ≠ Except.error ⟨⟨"KeyError", "k"⟩, Option.none⟩ := by
  refine ⟨rfl, fun h => ?_⟩
  injection h with h1
  exact absurd h1 (by decide)

/-- C5 (amended): if the direct evaluator raises `e1` and the secondary
attempt fails with `AttributeError` (no expand capability) or — provided the
expand attempt itself does not raise an unrelated exception — no aggregate
evaluator was registered, then the original exception `e1` is re-raised
unchanged with exception chaining suppressed (`raise e1 from None`), so the
secondary attempt does not appear as the reported cause. -/
theorem c5_amended_original_reraised {A T : Type} (direct : Except Exc A)
    (expand : Except Exc T) (reg : Option (T → Except Exc A)) (e1 : Exc)
    (hd : direct = Except.error e1)
    (h : (∃ ex, expand = Except.error ex ∧ caughtBySecondExcept ex = true)
        ∨ (∃ t, expand = Except.ok t ∧ reg = Option.none)) :
    op_transform_fn direct expand reg = Except.error ⟨e1, Option.none⟩ := by
  subst hd
  rcases h with ⟨ex, hex, hc⟩ | ⟨t, ht, hr⟩
  · rw [hex]
    simp [op_transform_fn, hc]
  · rw [ht, hr]
    simp [op_transform_fn]

/-- C5 witness: a direct evaluator raising `KeyError` on an object without
expand capability (`AttributeError`) and no registered aggregate evaluator:
the `KeyError` reaches the caller unchanged and unchained. -/
theorem c5_amended_original_reraised_sample :
    op_transform_fn (Except.error ⟨"KeyError", "k"⟩ : Except Exc Unit)
        (Except.error ⟨"AttributeError", "no expand"⟩ : Except Exc Unit)
        Option.none
      = Except.error ⟨⟨"KeyError", "k"⟩, Option.none⟩ := by
  exact c5_amended_original_reraised _ _ _ _ rfl
    (Or.inl ⟨⟨"AttributeError", "no expand"⟩, rfl, rfl⟩)

/-- The predicate `closeQ` unfolded to its comparison. -/
theorem closeQ_true_iff (a b : ℚ) : closeQ a b = true ↔ |a - b| ≤ 1e-8 + 1e-5 * |b| := by
  simp [closeQ]

/-- The predicate `closeQ` unfolded, negative form. -/
theorem closeQ_false_iff (a b : ℚ) : closeQ a b = false ↔ ¬ |a - b| ≤ 1e-8 + 1e-5 * |b| := by
  simp [closeQ]

/-- C7 counterexample: the matrix `diag(1, 2)` with declared eigenvalues
`[2, 1]`.  The two eigenvalue lists are equal as unordered multisets (they
are permutations of each other), yet `_check_eigvals` emits a
severity-error message, because `np.allclose(mat_eigvals, eigvals)` compares
the lists elementwise in order; permuting the declared list to `[1, 2]`
removes the error, so the order of the lists does change the outcome. -/
theorem c7_counterexample_multiset_equal_but_error :
    List.Perm [(1 : ℚ), 2] [2, 1]
    ∧ check_eigvals 2 (Option.some [2, 1]) (Option.some Mdiag12) ev0 = Except.ok [Level.error]
    ∧ check_eigvals 2 (Option.some [1, 2]) (Option.some Mdiag12) ev0 = Except.ok [] := by
  refine ⟨List.Perm.swap 2 1 [], ?_, ?_⟩
  · have h12 : closeQ 1 2 = false := by rw [closeQ_false_iff]; norm_num
    simp [check_eigvals, np_allclose_q, ev0, Except.map, h12]
  · have h11 : closeQ 1 1 = true := by rw [closeQ_true_iff]; norm_num
    have h22 : closeQ 2 2 = true := by rw [closeQ_true_iff]; norm_num
    simp [check_eigvals, np_allclose_q, ev0, Except.map, h11, h22]

/-- C7 (amended): when both a matrix and declared eigenvalues are available
and the computed and declared lists have equal length, the comparison is
elementwise in the given order with numpy's default tolerances (not the
checker's configured tolerance): no error is emitted iff every aligned pair
is close, and the severity-error diagnostic is emitted iff some aligned pair
differs beyond tolerance — so permuting either list can change the
outcome. -/
theorem c7_amended_eigvals_compared_elementwise (d : Nat) (m : Mat d)
    (ev : Mat d → List ℚ) (evs : List ℚ) (h : (ev m).length = evs.length) :
    (check_eigvals d (Option.some evs) (Option.some m) ev = Except.ok []
      ↔ ∀ p ∈ (ev m).zip evs, closeQ p.1 p.2 = true)
    ∧ (check_eigvals d (Option.some evs) (Option.some m) ev = Except.ok [Level.error]
      ↔ ∃ p ∈ (ev m).zip evs, closeQ p.1 p.2 = false) := by
  have he : check_eigvals d (Option.some evs) (Option.some m) ev
      = Except.ok (if ((ev m).zip evs).all (fun p => closeQ p.1 p.2) then [] else [Level.error]) := by
    simp [check_eigvals, np_allclose_q, h, Except.map]
  rw [he]
  cases hb : ((ev m).zip evs).all (fun p => closeQ p.1 p.2) with
  | true =>
    constructor
    · refine iff_of_true (by simp) ?_
      exact fun p hp => List.all_eq_true.mp hb p hp
    · refine iff_of_false (by simp) ?_
      rintro ⟨p, hp, hf⟩
      have := List.all_eq_true.mp hb p hp
      rw [hf] at this
      exact Bool.false_ne_true this
  | false =>
    rw [List.all_eq_false] at hb
    obtain ⟨p, hp, hf⟩ := hb
    constructor
    · refine iff_of_false (by simp) ?_
      intro hall
      exact hf (hall p hp)
    · refine iff_of_true (by simp) ?_
      exact ⟨p, hp, Bool.not_eq_true _ ▸ Bool.eq_false_iff.mpr hf⟩

/-- C7 witness: the matrix `diag(1, 2)` with declared eigenvalues `[1, 2]`
in matching order produces no diagnostic. -/
theorem c7_amended_eigvals_compared_elementwise_sample :
    check_eigvals 2 (Option.some [1, 2]) (Option.some Mdiag12) ev0 = Except.ok [] := by
  refine (c7_amended_eigvals_compared_elementwise 2 Mdiag12 ev0 [1, 2] rfl).1.mpr ?_
  intro p hp
  have hz : (ev0 Mdiag12).zip [(1 : ℚ), 2] = [(1, 1), (2, 2)] := rfl
  rw [hz] at hp
  rcases List.mem_cons.mp hp with h | h
  · subst h
    rw [closeQ_true_iff]
    norm_num
  · rw [List.mem_singleton] at h
    subst h
    rw [closeQ_true_iff]
    norm_num

/-- The predicate `allclose` unfolded to its pointwise condition. -/
theorem allclose_true_iff {d : Nat} (A B : Mat d) (atol : ℚ) :
    allclose A B atol = true ↔ ∀ i j, closeGC (A i j) (B i j) atol := by
  simp [allclose]

/-- The predicate `allclose` unfolded, negative form. -/
theorem allclose_false_iff {d : Nat} (A B : Mat d) (atol : ℚ) :
    allclose A B atol = false ↔ ¬ ∀ i j, closeGC (A i j) (B i j) atol := by
  simp [allclose]

/-- Every entry is close to itself at a nonnegative tolerance. -/
theorem closeGC_self (x : GC) (atol : ℚ) (h : 0 ≤ atol) : closeGC x x atol := by
  refine ⟨h, ?_⟩
  simp [GC.sub, GC.normSq]
  positivity

/-- A matrix is `allclose` to itself at a nonnegative tolerance, so
`equal_up_to_phase(M, M)` takes the early-return branch. -/
theorem equal_up_to_phase_self {d : Nat} (M : Mat d) (atol : ℚ) (h : 0 ≤ atol) :
    equal_up_to_phase M M atol = Except.ok true := by
  have ha : allclose M M atol = true := by
    rw [allclose_true_iff]
    exact fun i j => closeGC_self _ _ h
  simp [equal_up_to_phase, ha]

/-- With no captured-exception entries, the source's filter (which drops
only `None`) keeps exactly the usable matrices. -/
theorem kept_eq_map {d : Nat} (rs : List (RT d)) (hex : ∀ r ∈ rs, r.isExc = false) :
    keptRT rs = (usableMats rs).map RT.mat := by
  induction rs with
  | nil => rfl
  | cons r rs ih =>
    have htail : ∀ x ∈ rs, RT.isExc x = false :=
      fun x hx => hex x (List.mem_cons_of_mem r hx)
    cases r with
    | mat m =>
      simp [keptRT, usableMats, RT.isNone, List.filter_cons, List.filterMap_cons]
      exact ih htail
    | none =>
      simp [keptRT, usableMats, RT.isNone, List.filter_cons, List.filterMap_cons]
      exact ih htail
    | exc e =>
      have := hex (RT.exc e) (List.mem_cons_self _ _)
      simp [RT.isExc] at this

/-- The comparison loop over a list of usable matrices: when no comparison
raises, it emits one error-level message per element that fails
`equal_up_to_phase` against the head. -/
theorem checkDecompsGo_spec {d : Nat} (atol : ℚ) (m0 : Mat d) (ms : List (Mat d))
    (hok : ∀ m ∈ ms, equal_up_to_phase m0 m atol ≠ Except.error ()) :
    ∀ acc : List Level,
      checkDecompsGo atol (RT.mat m0) (ms.map RT.mat) acc
        = Except.ok (acc ++ List.replicate (ms.countP (fun m => failsCmp m0 m atol)) Level.error) := by
  induction ms with
  | nil =>
    intro acc
    simp [checkDecompsGo]
  | cons m ms ih =>
    intro acc
    have h0 : equal_up_to_phase m0 m atol ≠ Except.error () :=
      hok m (List.mem_cons_self _ _)
    have htail : ∀ x ∈ ms, equal_up_to_phase m0 x atol ≠ Except.error () :=
      fun x hx => hok x (List.mem_cons_of_mem m hx)
    simp only [List.map]
    cases he : equal_up_to_phase m0 m atol with
    | error u =>
      cases u
      exact absurd he h0
    | ok b =>
      have hfc : failsCmp m0 m atol = !b := by
        rw [failsCmp, he]
        cases b <;> rfl
      cases b with
      | true =>
        simp only [checkDecompsGo, euptRT, he]
        rw [ih htail acc, List.countP_cons, hfc]
        simp
      | false =>
        simp only [checkDecompsGo, euptRT, he]
        rw [ih htail (acc ++ [Level.error]), List.countP_cons, hfc]
        simp only [Bool.not_false, if_pos, List.append_assoc, List.singleton_append]
        rw [List.replicate_succ]

/-- C1 counterexample: the reconstruction results `[captured exception,
matrix, matrix]` with the two usable matrices identical.  Under the claim
the captured error would be excluded and the two equal usable matrices
compared without any mismatch (modelled by `checkDecompsSpec`, which
returns no diagnostics).  The source, however, filters out only `None`
(`if mat is not None`), so `matrices[0]` is the exception object and the
first `equal_up_to_phase` call receives it, crashing with a `TypeError`
instead of comparing the usable values against the first usable one. -/
theorem c1_counterexample_exception_kept_in_comparison :
    checkDecompsPar [RT.exc e0, RT.mat M1, RT.mat M1] (1e-5 : ℚ) = Except.error ()
    ∧ checkDecompsSpec [RT.exc e0, RT.mat M1, RT.mat M1] (1e-5 : ℚ) = Except.ok [] := by
  constructor
  · rfl
  · have h : equal_up_to_phase M1 M1 (1e-5 : ℚ) = Except.ok true :=
      equal_up_to_phase_self M1 _ (by norm_num)
    simp [checkDecompsSpec, usableMats, checkDecompsSpecGo, h]

/-- C1 (amended): the checker filters out only the `None` reconstruction
results; captured exception values are kept and reach the comparison (a
crash, not a graded diagnostic).  When no reconstruction returned a
captured error — and no comparison hits the first-nonzero-entry failure of
`equal_up_to_phase` — every usable reconstruction after the first is
compared for equality up to a global phase, within the configured absolute
tolerance, against the first computed one, and exactly the mismatches are
recorded as severity-error diagnostics for that operation. -/
theorem c1_amended_usable_compared_when_no_exception {d : Nat} (rs : List (RT d))
    (atol : ℚ) (m0 : Mat d) (ms : List (Mat d))
    (hex : ∀ r ∈ rs, r.isExc = false)
    (hu : usableMats rs = m0 :: ms)
    (hok : ∀ m ∈ ms, equal_up_to_phase m0 m atol ≠ Except.error ()) :
    checkDecompsPar rs atol
      = Except.ok (List.replicate (ms.countP (fun m => failsCmp m0 m atol)) Level.error) := by
  have hk : keptRT rs = RT.mat m0 :: ms.map RT.mat := by
    rw [kept_eq_map rs hex, hu, List.map]
  simp only [checkDecompsPar]
  rw [hk]
  show checkDecompsGo atol (RT.mat m0) (List.map RT.mat ms) []
    = Except.ok (List.replicate (ms.countP (fun m => failsCmp m0 m atol)) Level.error)
  rw [checkDecompsGo_spec atol m0 ms hok []]
  simp

/-- The predicate `roundNonzero` unfolded to its comparison. -/
theorem roundNonzero_true_iff (z : GC) :
    roundNonzero z = true ↔ ((1 : ℚ) / 2 < |z.re| * 10 ^ 10 ∨ (1 : ℚ) / 2 < |z.im| * 10 ^ 10) := by
  simp [roundNonzero]

/-- The row-major index enumeration of a 2x2 matrix. -/
theorem indexList_two : indexList 2 = [(0, 0), (0, 1), (1, 0), (1, 1)] := by
  decide

/-- Evaluating `equal_up_to_phase` on the identity and Pauli-Z matrices at
the checker's default tolerance: they are not `allclose`, the candidate
phase extracted from the entry `(0, 0)` is `1`, and `Z` rescaled by it still
differs from the identity, so the comparison returns `False`. -/
theorem eupt_I2_Z2 : equal_up_to_phase I2 Z2 (1e-5 : ℚ) = Except.ok false := by
  have ha : allclose I2 Z2 (1e-5 : ℚ) = false := by
    rw [allclose_false_iff]
    intro hall
    have h := hall 1 1
    rw [show I2 1 1 = (⟨1, 0⟩ : GC) from rfl, show Z2 1 1 = (⟨-1, 0⟩ : GC) from rfl] at h
    simp [closeGC, GC.sub, GC.normSq] at h
    norm_num at h
  have h00 : roundNonzero (Z2 0 0) = true := by
    rw [show Z2 0 0 = (⟨1, 0⟩ : GC) from rfl, roundNonzero_true_iff]
    left
    norm_num
  have hf : firstNonzeroIdx Z2 = Option.some (0, 0) := by
    rw [firstNonzeroIdx, indexList_two]
    exact List.find?_cons_of_pos _ h00
  have hs : allclose I2 (fun i j => (Z2 i j).mul ((I2 0 0).div (Z2 0 0))) (1e-5 : ℚ) = false := by
    rw [allclose_false_iff]
    intro hall
    have h := hall 1 1
    simp [closeGC, I2, Z2, GC.mul, GC.div, GC.inv, GC.sub, GC.normSq] at h
    norm_num at h
  simp only [equal_up_to_phase, ha, hf]
  simp only [Bool.false_eq_true, if_false]
  exact congrArg Except.ok hs

/-- C1 witness: the identity and the Pauli-Z matrix are not equal up to a
global phase, so checking the two usable reconstructions `[I, Z]` emits
exactly one severity-error diagnostic. -/
theorem c1_amended_usable_compared_when_no_exception_sample :
    checkDecompsPar [RT.mat I2, RT.mat Z2] (1e-5 : ℚ) = Except.ok [Level.error] := by
  have he : equal_up_to_phase I2 Z2 (1e-5 : ℚ) = Except.ok false := eupt_I2_Z2
  have h := c1_amended_usable_compared_when_no_exception
    [RT.mat I2, RT.mat Z2] (1e-5 : ℚ) I2 [Z2]
    (by intro r hr; rcases List.mem_cons.mp hr with h | h
        · subst h; rfl
        · rw [List.mem_singleton] at h; subst h; rfl)
    rfl
    (by intro m hm; rw [List.mem_singleton] at hm; subst hm
        rw [he]; intro hcon; cases hcon)
  rw [h]
  have hfc : failsCmp I2 Z2 (1e-5 : ℚ) = true := by rw [failsCmp, he]
  simp [List.countP_cons, List.countP_nil, hfc]

/-- The squared modulus is multiplicative. -/
theorem GC.normSq_mul (a b : GC) : (a.mul b).normSq = a.normSq * b.normSq := by
  cases a
  cases b
  simp [GC.mul, GC.normSq]
  ring

/-- The squared modulus vanishes only at zero. -/
theorem GC.normSq_eq_zero_iff (z : GC) : z.normSq = 0 ↔ z = ⟨0, 0⟩ := by
  cases z with
  | mk re im =>
    simp only [GC.normSq, GC.mk.injEq]
    constructor
    · intro h
      constructor <;> nlinarith [sq_nonneg re, sq_nonneg im]
    · rintro ⟨rfl, rfl⟩
      ring

/-- An entry that rounds to a nonzero value at 10 decimal places is
nonzero. -/
theorem roundNonzero_ne_zero (z : GC) (h : roundNonzero z = true) : z ≠ ⟨0, 0⟩ := by
  intro hz
  subst hz
  rw [roundNonzero_true_iff] at h
  norm_num at h

/-- Rescaling `c * a` by the candidate phase `w / (c * w)` recovers `a`
exactly, for any nonzero reference entry `c * w`. -/
theorem phase_cancel (c w a : GC) (hncw : (c.mul w).normSq ≠ 0) :
    (c.mul a).mul (w.div (c.mul w)) = a := by
  cases c with
  | mk cr ci =>
    cases w with
    | mk wr wi =>
      cases a with
      | mk ar ai =>
        simp only [GC.mul, GC.div, GC.inv, GC.normSq] at *
        rw [GC.mk.injEq]
        constructor <;> field_simp <;> ring

/-- Every index pair occurs in the row-major enumeration. -/
theorem mem_indexList {d : Nat} (i j : Fin d) : (i, j) ∈ indexList d := by
  simp only [indexList, List.mem_flatMap, List.mem_map]
  exact ⟨i, List.mem_finRange i, j, List.mem_finRange j, rfl⟩

/-- C9 (amended): `equal_up_to_phase(M, M)` returns `True` for every matrix
`M` at the default absolute tolerance; and `equal_up_to_phase(M, cM)` for a
unit phase `c = exp(i*theta)` returns `True` for every `M` such that some
entry of `cM` rounds to a nonzero value at 10 decimal places (so the lookup
of the first nonzero entry of `cM` succeeds); when every entry of `cM`
rounds to zero the lookup can instead fail with an `IndexError`. -/
theorem c9_amended_equal_up_to_phase :
    (∀ (d : Nat) (M : Mat d), equal_up_to_phase M M (1e-10 : ℚ) = Except.ok true)
    ∧ (∀ (d : Nat) (M : Mat d) (c : GC), c.normSq = 1 →
        (∃ i j, roundNonzero (smulMat c M i j) = true) →
        equal_up_to_phase M (smulMat c M) (1e-10 : ℚ) = Except.ok true) := by
  constructor
  · intro d M
    exact equal_up_to_phase_self M _ (by norm_num)
  · intro d M c _hc hex
    cases hA : allclose M (smulMat c M) (1e-10 : ℚ) with
    | true => simp [equal_up_to_phase, hA]
    | false =>
      obtain ⟨i, j, hij⟩ := hex
      have hsome : (firstNonzeroIdx (smulMat c M)).isSome := by
        rw [firstNonzeroIdx, List.find?_isSome]
        exact ⟨(i, j), mem_indexList i j, hij⟩
      obtain ⟨q, hq⟩ := Option.isSome_iff_exists.mp hsome
      have hpq : roundNonzero (smulMat c M q.1 q.2) = true := by
        rw [firstNonzeroIdx] at hq
        simpa using List.find?_some hq
      have hn : (c.mul (M q.1 q.2)).normSq ≠ 0 := by
        intro h0
        exact roundNonzero_ne_zero _ hpq ((GC.normSq_eq_zero_iff _).mp h0)
      have hall : allclose M
          (fun i' j' => (smulMat c M i' j').mul ((M q.1 q.2).div (smulMat c M q.1 q.2)))
          (1e-10 : ℚ) = true := by
        rw [allclose_true_iff]
        intro i' j'
        have hentry : (smulMat c M i' j').mul ((M q.1 q.2).div (smulMat c M q.1 q.2))
            = M i' j' := phase_cancel c (M q.1 q.2) (M i' j') hn
        rw [hentry]
        exact closeGC_self _ _ (by norm_num)
      simp only [equal_up_to_phase, hA, Bool.false_eq_true, if_false, hq, hall]

/-- C9 witness: multiplying the all-ones one-by-one matrix by the unit phase
`i` leaves it equal up to a global phase. -/
theorem c9_amended_equal_up_to_phase_sample :
    equal_up_to_phase M1 (smulMat cI M1) (1e-10 : ℚ) = Except.ok true := by
  refine c9_amended_equal_up_to_phase.2 1 M1 cI ?_ ?_
  · simp [GC.normSq, cI]
  · refine ⟨0, 0, ?_⟩
    rw [roundNonzero_true_iff]
    right
    norm_num [smulMat, GC.mul, cI, M1]

/-- The row-major index enumeration of a 1x1 matrix. -/
theorem indexList_one : indexList 1 = [(0, 0)] := by
  decide

/-- C9 counterexample: the one-by-one matrix `M = [[4e-11 + 4e-11 i]]` and
the real phase `theta = pi`, so `exp(i*theta) = -1`.  `M` and `-M` differ by
more than the default tolerance `1e-10`, but every entry of `-M` rounds to
zero at 10 decimal places, so `np.where(np.round(mat2, 10))` is empty and
the subscript `ids[0][0]` raises an `IndexError` instead of returning
`True`. -/
theorem c9_counterexample_tiny_matrix_index_error :
    GC.normSq cNeg1 = 1
    ∧ equal_up_to_phase Mtiny (smulMat cNeg1 Mtiny) (1e-10 : ℚ) = Except.error () := by
  constructor
  · simp [GC.normSq, cNeg1]
  · have ha : allclose Mtiny (smulMat cNeg1 Mtiny) (1e-10 : ℚ) = false := by
      rw [allclose_false_iff]
      intro hall
      have h := hall 0 0
      simp [closeGC, Mtiny, smulMat, cNeg1, GC.mul, GC.sub, GC.normSq] at h
      norm_num at h
    have hrz : roundNonzero (smulMat cNeg1 Mtiny 0 0) = false := by
      rw [Bool.eq_false_iff, Ne, roundNonzero_true_iff]
      intro h
      rcases h with h | h
      · simp [smulMat, cNeg1, Mtiny, GC.mul] at h
        rw [abs_of_pos (by norm_num)] at h
        norm_num at h
      · simp [smulMat, cNeg1, Mtiny, GC.mul] at h
        rw [abs_of_pos (by norm_num)] at h
        norm_num at h
    have hf : firstNonzeroIdx (smulMat cNeg1 Mtiny) = Option.none := by
      rw [firstNonzeroIdx, indexList_one]
      rw [List.find?_cons_of_neg _ (by rw [hrz]; exact Bool.false_ne_true)]
      rfl
    simp only [equal_up_to_phase, ha, Bool.false_eq_true, if_false, hf]

end OpChecker
